import Mathlib

/-!
Shallow embedding of `tools/evaluate-sroie.py` (SROIE OCR evaluation script).

The script loads the SROIE dataset, builds a `CountVectorizer(binary=True)`
vocabulary from the ground-truth texts of the first `max_samples` samples,
runs the `ocrs` backend over those samples (saving each image to a named
temporary file with `delete=False` and timing each `extract_text` call),
optionally runs Tesseract, and prints one report line per backend with
average latency and micro-averaged precision / recall / F1.

Images are abstracted as `Nat` identifiers (the content written into the
temp files).  Wall-clock durations are an environment-supplied function of
the loop index, with values in `ℚ`.  Fallible external calls (`cargo build`,
`extract_text`, `pytesseract.image_to_string`) are `Except String`-valued
environment parameters; `check=True` subprocess failures and Python
exceptions both surface as `Except.error`, which the script never catches.
-/

namespace SroieEval

/-- Word character class of the default scikit-learn token pattern
`(?u)\b\w\w+\b`: alphanumerics and underscore. -/
def isWordChar (c : Char) : Bool := c.isAlphanum || c = '_'

/-- Scan a character list, collecting maximal runs of word characters and
keeping only runs of length ≥ 2 (the `\w\w+` minimum-length policy).
`cur` is the current run, in reverse order. -/
def tokenizeAux : List Char → List Char → List String
  | [], cur => if 2 ≤ cur.length then [String.mk cur.reverse] else []
  | c :: cs, cur =>
    if isWordChar c then tokenizeAux cs (c :: cur)
    else (if 2 ≤ cur.length then [String.mk cur.reverse] else []) ++ tokenizeAux cs []

/-- scikit-learn's default word tokenizer: lowercase, then split into
maximal word-character runs of length ≥ 2. -/
def tokenize (s : String) : List String := tokenizeAux (s.data.map Char.toLower) []

/-- Lexicographic comparison of character lists by code point, the order
`sorted` and `CountVectorizer` use for vocabulary terms. -/
def charListLe : List Char → List Char → Bool
  | [], _ => true
  | _ :: _, [] => false
  | a :: as, b :: bs =>
    if a.toNat < b.toNat then true
    else if b.toNat < a.toNat then false
    else charListLe as bs

/-- Lexicographic string comparison by code point. -/
def strLe (s t : String) : Bool := charListLe s.data t.data

/-- Insert into a sorted list of strings (helper for the sorted vocabulary). -/
def insertSorted (x : String) : List String → List String
  | [] => [x]
  | y :: ys => if strLe x y then x :: y :: ys else y :: insertSorted x ys

/-- Insertion sort on strings; `CountVectorizer` stores its vocabulary in
sorted term order. -/
def sortStrings : List String → List String
  | [] => []
  | x :: xs => insertSorted x (sortStrings xs)

/-- `CountVectorizer.fit`: the vocabulary is the sorted set of distinct
tokens occurring in the fitted documents. -/
def fitVocab (docs : List String) : List String :=
  sortStrings ((docs.map tokenize).flatten.dedup)

/-- `CountVectorizer.transform` with `binary=True`: one presence bit per
vocabulary term, in vocabulary order.  Tokens outside the vocabulary are
ignored. -/
def transform (vocab : List String) (doc : String) : List Bool :=
  vocab.map fun t => decide (t ∈ tokenize doc)

/-- Pooled true-positive count over all (sample, term) cells. -/
def tpCount (yt yp : List (List Bool)) : Nat :=
  ((yt.zip yp).map fun r => (r.1.zip r.2).countP fun c => c.1 && c.2).sum

/-- Pooled false-positive count over all (sample, term) cells. -/
def fpCount (yt yp : List (List Bool)) : Nat :=
  ((yt.zip yp).map fun r => (r.1.zip r.2).countP fun c => !c.1 && c.2).sum

/-- Pooled false-negative count over all (sample, term) cells. -/
def fnCount (yt yp : List (List Bool)) : Nat :=
  ((yt.zip yp).map fun r => (r.1.zip r.2).countP fun c => c.1 && !c.2).sum

/-- Number of positive cells in a binary matrix. -/
def onesCount (x : List (List Bool)) : Nat :=
  (x.map fun r => r.countP fun b => b).sum

/-- `precision_score(average="micro")`: TP/(TP+FP), with scikit-learn's
zero-division convention returning 0 when no cell is predicted positive. -/
def microPrecision (yt yp : List (List Bool)) : ℚ :=
  if tpCount yt yp + fpCount yt yp = 0 then 0
  else (tpCount yt yp : ℚ) / ((tpCount yt yp : ℚ) + (fpCount yt yp : ℚ))

/-- `recall_score(average="micro")`: TP/(TP+FN), 0 when no cell is truly
positive. -/
def microRecall (yt yp : List (List Bool)) : ℚ :=
  if tpCount yt yp + fnCount yt yp = 0 then 0
  else (tpCount yt yp : ℚ) / ((tpCount yt yp : ℚ) + (fnCount yt yp : ℚ))

/-- `f1_score(average="micro")`: harmonic mean of micro precision and micro
recall, 0 when both are 0. -/
def microF1 (yt yp : List (List Bool)) : ℚ :=
  if microPrecision yt yp + microRecall yt yp = 0 then 0
  else 2 * microPrecision yt yp * microRecall yt yp /
    (microPrecision yt yp + microRecall yt yp)

/-- One SROIE dataset record: an image (abstracted to an identifier) and its
ground-truth text lines (`el["objects"]["text"]`). -/
structure Sample where
  image : Nat
  texts : List String

/-- The script's external world: the dataset, the outcome of
`cargo build --release -p ocrs-cli`, the two OCR engines as functions of the
image content they are shown, the measured per-iteration durations, and
whether `import pytesseract` succeeded. -/
structure Env where
  dataset : List Sample
  buildResult : Except String Unit
  ocrsExtract : Nat → Except String String
  ocrsTime : Nat → ℚ
  tesseractAvailable : Bool
  tessExtract : Nat → Except String String
  tessTime : Nat → ℚ

/-- `"\n".join(el["objects"]["text"])`. -/
def joinLines (ls : List String) : String := String.intercalate "\n" ls

/-- `true_text`: one joined ground-truth string per dataset record. -/
def trueText (ds : List Sample) : List String := ds.map fun s => joinLines s.texts

/-- `true_text[:max_samples]`: the documents the vocabulary is fitted on. -/
def groundDocs (env : Env) (n : Nat) : List String := (trueText env.dataset).take n

/-- The vocabulary produced by `vectorizer.fit_transform(true_text[:max_samples])`. -/
def theVocab (env : Env) (n : Nat) : List String := fitVocab (groundDocs env n)

/-- `X_true`: the ground-truth documents vectorized over the fitted vocabulary. -/
def xTrueD (env : Env) (n : Nat) : List (List Bool) :=
  (groundDocs env n).map (transform (theVocab env n))

/-- Python's `enumerate`, starting at `k`. -/
def enumFromList (k : Nat) : List Sample → List (Nat × Sample)
  | [] => []
  | s :: ss => (k, s) :: enumFromList (k + 1) ss

/-- Python's `enumerate(dataset)` (restricted to the prefix the loop visits
before `idx >= max_samples` breaks). -/
def enumList (l : List Sample) : List (Nat × Sample) := enumFromList 0 l

/-- State of the ocrs evaluation loop: collected predictions, accumulated
extraction time, the temp files currently on disk (name, image content),
the image handed to each `extract_text` call, and the `tmp_file` variable
left over from the most recent iteration. -/
structure OcrsSt where
  preds : List String
  time : ℚ
  files : List (Nat × Nat)
  imagesUsed : List Nat
  last : Option (Nat × Nat)

/-- The ocrs loop body, iterated over the enumerated samples.  Each
iteration creates a `NamedTemporaryFile(delete=False)` (modelled with the
loop index as the fresh name), saves the sample's image into it, and calls
`extract_text` on it inside the `with` block; `delete=False` means the file
is closed but never removed.  On success the prediction is appended and the
elapsed time added; a failing `extract_text` (`check=True`) raises, so the
loop stops with the error after the file was already created. -/
def ocrsLoopAux (env : Env) : List (Nat × Sample) → OcrsSt → OcrsSt × Option String
  | [], st => (st, none)
  | (idx, s) :: rest, st =>
    match env.ocrsExtract s.image with
    | Except.error e =>
      ({ st with
          files := st.files ++ [(idx, s.image)],
          imagesUsed := st.imagesUsed ++ [s.image],
          last := some (idx, s.image) }, some e)
    | Except.ok txt =>
      ocrsLoopAux env rest
        { preds := st.preds ++ [txt],
          time := st.time + env.ocrsTime idx,
          files := st.files ++ [(idx, s.image)],
          imagesUsed := st.imagesUsed ++ [s.image],
          last := some (idx, s.image) }

/-- Initial ocrs-loop state: `text_pred_orcs = []`, `time_orcs = 0`, no temp
files yet, `tmp_file` not yet bound. -/
def ocrsInit : OcrsSt := ⟨[], 0, [], [], none⟩

/-- Final state of the ocrs loop over the first `n` samples. -/
def ocrsFst (env : Env) (n : Nat) : OcrsSt :=
  (ocrsLoopAux env (enumList (env.dataset.take n)) ocrsInit).1

/-- The error, if any, that aborted the ocrs loop. -/
def ocrsErr (env : Env) (n : Nat) : Option String :=
  (ocrsLoopAux env (enumList (env.dataset.take n)) ocrsInit).2

/-- `time_orcs` after the loop: total accumulated extraction time. -/
def ocrsTotal (env : Env) (n : Nat) : ℚ := (ocrsFst env n).time

/-- State of the Tesseract loop: predictions, accumulated time, and the
image content handed to each `image_to_string` call. -/
structure TessSt where
  preds : List String
  time : ℚ
  imagesUsed : List Nat

/-- The Tesseract loop body.  The script passes `tmp_file.name` — the stale
variable from the ocrs loop — to every `image_to_string` call, so every
iteration reads the same file, whose content is `stale`. -/
def tessLoopAux (env : Env) (stale : Nat) :
    List (Nat × Sample) → TessSt → TessSt × Option String
  | [], st => (st, none)
  | (idx, _s) :: rest, st =>
    match env.tessExtract stale with
    | Except.error e =>
      ({ st with
          imagesUsed := st.imagesUsed ++ [stale] }, some e)
    | Except.ok txt =>
      tessLoopAux env stale rest
        { preds := st.preds ++ [txt],
          time := st.time + env.tessTime idx,
          imagesUsed := st.imagesUsed ++ [stale] }

/-- Initial Tesseract-loop state. -/
def tessInit : TessSt := ⟨[], 0, []⟩

/-- Final state of the Tesseract loop over the first `n` samples. -/
def tessFst (env : Env) (stale n : Nat) : TessSt :=
  (tessLoopAux env stale (enumList (env.dataset.take n)) tessInit).1

/-- The error, if any, that aborted the Tesseract loop. -/
def tessErr (env : Env) (stale n : Nat) : Option String :=
  (tessLoopAux env stale (enumList (env.dataset.take n)) tessInit).2

/-- One printed report line:
`" - <backend>: <s> s / image, precision <p>, recall <r>, F1 <f>"`. -/
structure Line where
  backend : String
  avgLatency : ℚ
  precision : ℚ
  recallScore : ℚ
  f1 : ℚ

/-- Build a report line exactly as the script's format string does: the
latency is `time_<backend> / max_samples` and the metrics compare `X_true`
with the backend's transformed predictions. -/
def reportLine (name : String) (total : ℚ) (n : Nat)
    (xT xP : List (List Bool)) : Line :=
  { backend := name,
    avgLatency := total / (n : ℚ),
    precision := microPrecision xT xP,
    recallScore := microRecall xT xP,
    f1 := microF1 xT xP }

/-- Observable outcome of one whole run: the report lines printed, the
uncaught error (if the process died), the temp files left on disk, the
image contents handed to each backend call, the fitted vocabulary, and the
collected prediction lists. -/
structure RunOut where
  lines : List Line
  err : Option String
  files : List (Nat × Nat)
  ocrsImages : List Nat
  tessImages : List Nat
  vocab : List String
  ocrsPreds : List String
  tessPreds : Option (List String)

/-- Outcome of a run that died before anything was printed or written. -/
def failedRun (e : String) : RunOut := ⟨[], some e, [], [], [], [], [], none⟩

/-- The `ValueError` raised by `CountVectorizer` when fitting yields no terms
(in particular when the document list is empty). -/
def emptyVocabMsg : String :=
  "ValueError: empty vocabulary; perhaps the documents only contain stop words"

/-- The `NameError` Python would raise if the Tesseract loop read `tmp_file`
while the ocrs loop never ran an iteration. -/
def nameErrMsg : String := "NameError: tmp_file is not defined"

/-- The ORCS report line of a successful ocrs loop. -/
def oLineD (env : Env) (n : Nat) : Line :=
  reportLine "ORCS" (ocrsFst env n).time n (xTrueD env n)
    ((ocrsFst env n).preds.map (transform (theVocab env n)))

/-- The Tesseract report line, given the stale image content it actually read. -/
def tLineD (env : Env) (stale n : Nat) : Line :=
  reportLine "Tesseract" (tessFst env stale n).time n (xTrueD env n)
    ((tessFst env stale n).preds.map (transform (theVocab env n)))

/-- The whole script: `build_ocrs()` then `run_global_retrieval_eval(n)`.
Mirrors the control flow of `evaluate-sroie.py`: build, fit the vocabulary
(raising on an empty vocabulary), run the ocrs loop, print the ORCS line,
then — only if `pytesseract` imported — run the Tesseract loop on the stale
temp file and print its line.  Any uncaught error stops the process with
that error; lines printed before the error remain printed. -/
def runEval (env : Env) (n : Nat) : RunOut :=
  match env.buildResult with
  | Except.error e => failedRun e
  | Except.ok _ =>
    if theVocab env n = [] then failedRun emptyVocabMsg
    else
      match ocrsErr env n with
      | some e =>
        { lines := [],
          err := some e,
          files := (ocrsFst env n).files,
          ocrsImages := (ocrsFst env n).imagesUsed,
          tessImages := [],
          vocab := theVocab env n,
          ocrsPreds := (ocrsFst env n).preds,
          tessPreds := none }
      | none =>
        if env.tesseractAvailable then
          match (ocrsFst env n).last with
          | none =>
            { lines := [oLineD env n],
              err := some nameErrMsg,
              files := (ocrsFst env n).files,
              ocrsImages := (ocrsFst env n).imagesUsed,
              tessImages := [],
              vocab := theVocab env n,
              ocrsPreds := (ocrsFst env n).preds,
              tessPreds := none }
          | some (_nm, stale) =>
            match tessErr env stale n with
            | some e =>
              { lines := [oLineD env n],
                err := some e,
                files := (ocrsFst env n).files,
                ocrsImages := (ocrsFst env n).imagesUsed,
                tessImages := (tessFst env stale n).imagesUsed,
                vocab := theVocab env n,
                ocrsPreds := (ocrsFst env n).preds,
                tessPreds := none }
            | none =>
              { lines := [oLineD env n, tLineD env stale n],
                err := none,
                files := (ocrsFst env n).files,
                ocrsImages := (ocrsFst env n).imagesUsed,
                tessImages := (tessFst env stale n).imagesUsed,
                vocab := theVocab env n,
                ocrsPreds := (ocrsFst env n).preds,
                tessPreds := some (tessFst env stale n).preds }
        else
          { lines := [oLineD env n],
            err := none,
            files := (ocrsFst env n).files,
            ocrsImages := (ocrsFst env n).imagesUsed,
            tessImages := [],
            vocab := theVocab env n,
            ocrsPreds := (ocrsFst env n).preds,
            tessPreds := none }

/-- The `tmp_file` variable left after iterating over `l`, starting from
`st0`: the (name, image) of the last temp file created, if any. -/
def lastFile (st0 : Option (Nat × Nat)) : List (Nat × Sample) → Option (Nat × Nat)
  | [] => st0
  | p :: rest => lastFile (some (p.1, p.2.image)) rest

/-- Concrete world for the Tesseract stale-file bug: two samples with
distinct images, `pytesseract` available. -/
def envC1 : Env :=
  { dataset := [⟨10, ["aa"]⟩, ⟨20, ["bb"]⟩],
    buildResult := Except.ok (),
    ocrsExtract := fun _ => Except.ok "aa",
    ocrsTime := fun _ => 0,
    tesseractAvailable := true,
    tessExtract := fun _ => Except.ok "aa",
    tessTime := fun _ => 0 }

/-- Concrete world with one sample (image 7) and a well-behaved backend,
Tesseract absent. -/
def envC2 : Env :=
  { dataset := [⟨7, ["aa"]⟩],
    buildResult := Except.ok (),
    ocrsExtract := fun _ => Except.ok "aa",
    ocrsTime := fun _ => 0,
    tesseractAvailable := false,
    tessExtract := fun _ => Except.ok "",
    tessTime := fun _ => 0 }

/-- Concrete world with one sample and 4 seconds of measured extraction
time per call, used with `max_samples = 2` to exercise the latency divisor. -/
def envC3 : Env :=
  { dataset := [⟨5, ["aa"]⟩],
    buildResult := Except.ok (),
    ocrsExtract := fun _ => Except.ok "aa",
    ocrsTime := fun _ => 4,
    tesseractAvailable := false,
    tessExtract := fun _ => Except.ok "",
    tessTime := fun _ => 0 }

/-- Concrete world with both backends configured and succeeding. -/
def envC4 : Env :=
  { dataset := [⟨2, ["aa"]⟩],
    buildResult := Except.ok (),
    ocrsExtract := fun _ => Except.ok "aa",
    ocrsTime := fun _ => 0,
    tesseractAvailable := true,
    tessExtract := fun _ => Except.ok "aa",
    tessTime := fun _ => 0 }

/-- Concrete world whose backend predicts the empty string on every image. -/
def envC5 : Env :=
  { dataset := [⟨1, ["aa"]⟩],
    buildResult := Except.ok (),
    ocrsExtract := fun _ => Except.ok "",
    ocrsTime := fun _ => 0,
    tesseractAvailable := false,
    tessExtract := fun _ => Except.ok "",
    tessTime := fun _ => 0 }

/-- `envC2` with Tesseract present, for comparing the two runs. -/
def envC2p : Env := { envC2 with tesseractAvailable := true }

/-- Concrete world whose `cargo build` fails. -/
def envB : Env :=
  { dataset := [⟨7, ["aa"]⟩],
    buildResult := Except.error "boom",
    ocrsExtract := fun _ => Except.ok "aa",
    ocrsTime := fun _ => 0,
    tesseractAvailable := false,
    tessExtract := fun _ => Except.ok "",
    tessTime := fun _ => 0 }

/-- Concrete world whose `extract_text` fails on every sample. -/
def envE : Env :=
  { dataset := [⟨7, ["aa"]⟩],
    buildResult := Except.ok (),
    ocrsExtract := fun _ => Except.error "fail",
    ocrsTime := fun _ => 0,
    tesseractAvailable := false,
    tessExtract := fun _ => Except.ok "",
    tessTime := fun _ => 0 }

/-! ### Loop lemmas -/

/-- The ocrs loop only reads the environment through `ocrsExtract` and
`ocrsTime`; the Tesseract configuration is irrelevant to it. -/
lemma ocrsLoopAux_congr (env env' : Env)
    (hx : env'.ocrsExtract = env.ocrsExtract) (ht : env'.ocrsTime = env.ocrsTime) :
    ∀ (l : List (Nat × Sample)) (st : OcrsSt),
      ocrsLoopAux env' l st = ocrsLoopAux env l st := by
  intro l
  induction l with
  | nil => intro st; rfl
  | cons p rest ih =>
    intro st
    obtain ⟨idx, s⟩ := p
    simp only [ocrsLoopAux, hx, ht]
    cases hres : env.ocrsExtract s.image with
    | error e => rfl
    | ok txt => exact ih _

/-- When `extract_text` succeeds on every visited sample (returning `f` of
the sample), the ocrs loop returns all predictions in order, the summed
times, one persisting temp file per sample, and no error. -/
lemma ocrsLoopAux_ok (env : Env) (f : Sample → String) :
    ∀ (l : List (Nat × Sample)) (st : OcrsSt),
      (∀ p ∈ l, env.ocrsExtract p.2.image = Except.ok (f p.2)) →
      ocrsLoopAux env l st =
        ({ preds := st.preds ++ l.map fun p => f p.2,
           time := st.time + (l.map fun p => env.ocrsTime p.1).sum,
           files := st.files ++ l.map fun p => (p.1, p.2.image),
           imagesUsed := st.imagesUsed ++ l.map fun p => p.2.image,
           last := lastFile st.last l }, none) := by
  intro l
  induction l with
  | nil =>
    intro st _
    simp [ocrsLoopAux, lastFile]
  | cons p rest ih =>
    intro st hf
    obtain ⟨idx, s⟩ := p
    have hx : env.ocrsExtract s.image = Except.ok (f s) := hf (idx, s) (by simp)
    simp only [ocrsLoopAux, hx]
    rw [ih _ (fun q hq => hf q (by simp [hq]))]
    simp [lastFile, List.append_assoc, add_assoc]

/-! ### Branch characterizations of `runEval` -/

/-- A failing `cargo build` aborts the run before anything happens. -/
lemma runEval_build_err (env : Env) (n : Nat) (e : String)
    (hb : env.buildResult = Except.error e) : runEval env n = failedRun e := by
  simp [runEval, hb]

/-- An empty fitted vocabulary aborts the run at `fit_transform`. -/
lemma runEval_vocab_empty (env : Env) (n : Nat)
    (hb : env.buildResult = Except.ok ()) (hv : theVocab env n = []) :
    runEval env n = failedRun emptyVocabMsg := by
  simp [runEval, hb, hv]

/-- A failing `extract_text` aborts the run with that error: no report line
is printed, and the temp files written so far stay on disk. -/
lemma runEval_loop_err (env : Env) (n : Nat) (e : String)
    (hb : env.buildResult = Except.ok ()) (hv : ¬ theVocab env n = [])
    (ho : ocrsErr env n = some e) :
    runEval env n =
      { lines := [],
        err := some e,
        files := (ocrsFst env n).files,
        ocrsImages := (ocrsFst env n).imagesUsed,
        tessImages := [],
        vocab := theVocab env n,
        ocrsPreds := (ocrsFst env n).preds,
        tessPreds := none } := by
  simp [runEval, hb, hv, ho]

/-- Successful run without Tesseract: only the ORCS line is printed. -/
lemma runEval_ok_off (env : Env) (n : Nat)
    (hb : env.buildResult = Except.ok ()) (hv : ¬ theVocab env n = [])
    (ho : ocrsErr env n = none) (hta : env.tesseractAvailable = false) :
    runEval env n =
      { lines := [oLineD env n],
        err := none,
        files := (ocrsFst env n).files,
        ocrsImages := (ocrsFst env n).imagesUsed,
        tessImages := [],
        vocab := theVocab env n,
        ocrsPreds := (ocrsFst env n).preds,
        tessPreds := none } := by
  simp [runEval, hb, hv, ho, hta]

/-- Tesseract available but `tmp_file` never bound (ocrs loop ran zero
iterations): the ORCS line is printed, then the process dies of the
`NameError`. -/
lemma runEval_last_none (env : Env) (n : Nat)
    (hb : env.buildResult = Except.ok ()) (hv : ¬ theVocab env n = [])
    (ho : ocrsErr env n = none) (hta : env.tesseractAvailable = true)
    (hl : (ocrsFst env n).last = none) :
    runEval env n =
      { lines := [oLineD env n],
        err := some nameErrMsg,
        files := (ocrsFst env n).files,
        ocrsImages := (ocrsFst env n).imagesUsed,
        tessImages := [],
        vocab := theVocab env n,
        ocrsPreds := (ocrsFst env n).preds,
        tessPreds := none } := by
  simp [runEval, hb, hv, ho, hta, hl]

/-- A failing Tesseract call: the ORCS line was already printed, no
Tesseract line is, and the process dies with the error. -/
lemma runEval_tess_err (env : Env) (n : Nat) (nm stale : Nat) (e : String)
    (hb : env.buildResult = Except.ok ()) (hv : ¬ theVocab env n = [])
    (ho : ocrsErr env n = none) (hta : env.tesseractAvailable = true)
    (hl : (ocrsFst env n).last = some (nm, stale))
    (hte : tessErr env stale n = some e) :
    runEval env n =
      { lines := [oLineD env n],
        err := some e,
        files := (ocrsFst env n).files,
        ocrsImages := (ocrsFst env n).imagesUsed,
        tessImages := (tessFst env stale n).imagesUsed,
        vocab := theVocab env n,
        ocrsPreds := (ocrsFst env n).preds,
        tessPreds := none } := by
  simp [runEval, hb, hv, ho, hta, hl, hte]

/-- Fully successful run with Tesseract: both lines are printed. -/
lemma runEval_ok_on (env : Env) (n : Nat) (nm stale : Nat)
    (hb : env.buildResult = Except.ok ()) (hv : ¬ theVocab env n = [])
    (ho : ocrsErr env n = none) (hta : env.tesseractAvailable = true)
    (hl : (ocrsFst env n).last = some (nm, stale))
    (hte : tessErr env stale n = none) :
    runEval env n =
      { lines := [oLineD env n, tLineD env stale n],
        err := none,
        files := (ocrsFst env n).files,
        ocrsImages := (ocrsFst env n).imagesUsed,
        tessImages := (tessFst env stale n).imagesUsed,
        vocab := theVocab env n,
        ocrsPreds := (ocrsFst env n).preds,
        tessPreds := some (tessFst env stale n).preds } := by
  simp [runEval, hb, hv, ho, hta, hl, hte]

/-- In every run that got past `fit_transform` and the ocrs loop, the first
report line is the ORCS line, whatever happens to Tesseract afterwards. -/
lemma lines_head_ok (env : Env) (n : Nat)
    (hb : env.buildResult = Except.ok ()) (hv : ¬ theVocab env n = [])
    (ho : ocrsErr env n = none) :
    (runEval env n).lines.head? = some (oLineD env n) := by
  cases hta : env.tesseractAvailable with
  | false => rw [runEval_ok_off env n hb hv ho hta]; rfl
  | true =>
    cases hl : (ocrsFst env n).last with
    | none => rw [runEval_last_none env n hb hv ho hta hl]; rfl
    | some p =>
      obtain ⟨nm, stale⟩ := p
      cases hte : tessErr env stale n with
      | none => rw [runEval_ok_on env n nm stale hb hv ho hta hl hte]; rfl
      | some e => rw [runEval_tess_err env n nm stale e hb hv ho hta hl hte]; rfl

/-- Same case analysis for the `vocab` projection: every run that fitted the
vectorizer reports the vocabulary fitted on the ground truth. -/
lemma vocab_ok (env : Env) (n : Nat)
    (hb : env.buildResult = Except.ok ()) (hv : ¬ theVocab env n = []) :
    (runEval env n).vocab = theVocab env n := by
  cases ho : ocrsErr env n with
  | some e => rw [runEval_loop_err env n e hb hv ho]
  | none =>
    cases hta : env.tesseractAvailable with
    | false => rw [runEval_ok_off env n hb hv ho hta]
    | true =>
      cases hl : (ocrsFst env n).last with
      | none => rw [runEval_last_none env n hb hv ho hta hl]
      | some p =>
        obtain ⟨nm, stale⟩ := p
        cases hte : tessErr env stale n with
        | none => rw [runEval_ok_on env n nm stale hb hv ho hta hl hte]
        | some e => rw [runEval_tess_err env n nm stale e hb hv ho hta hl hte]

/-! ### Vocabulary and tokenizer lemmas -/

/-- Sorted insertion preserves membership. -/
lemma mem_insertSorted (x a : String) :
    ∀ l : List String, a ∈ insertSorted x l ↔ a = x ∨ a ∈ l := by
  intro l
  induction l with
  | nil => simp [insertSorted]
  | cons y ys ih =>
    simp only [insertSorted]
    by_cases h : strLe x y = true
    · simp [h, List.mem_cons]
    · simp [h, List.mem_cons, ih, or_left_comm]

/-- Sorting preserves membership. -/
lemma mem_sortStrings (a : String) : ∀ l : List String, a ∈ sortStrings l ↔ a ∈ l := by
  intro l
  induction l with
  | nil => simp [sortStrings]
  | cons x xs ih => simp [sortStrings, mem_insertSorted, ih, List.mem_cons]

/-- A term is in the fitted vocabulary iff it is a token of some fitted
document. -/
lemma mem_fitVocab (t : String) (docs : List String) :
    t ∈ fitVocab docs ↔ ∃ d ∈ docs, t ∈ tokenize d := by
  simp [fitVocab, mem_sortStrings, List.mem_dedup, List.mem_flatten]

/-- Every token produced by the scanner has at least two characters. -/
lemma length_of_mem_tokenizeAux :
    ∀ (cs cur : List Char) (t : String), t ∈ tokenizeAux cs cur → 2 ≤ t.length := by
  intro cs
  induction cs with
  | nil =>
    intro cur t ht
    simp only [tokenizeAux] at ht
    by_cases h : 2 ≤ cur.length
    · simp only [if_pos h, List.mem_singleton] at ht
      subst ht
      simpa [String.length] using h
    · simp [if_neg h] at ht
  | cons c cs ih =>
    intro cur t ht
    simp only [tokenizeAux] at ht
    by_cases h : isWordChar c = true
    · rw [if_pos h] at ht
      exact ih _ t ht
    · rw [if_neg h] at ht
      rcases List.mem_append.mp ht with h1 | h2
      · by_cases hl : 2 ≤ cur.length
        · simp only [if_pos hl, List.mem_singleton] at h1
          subst h1
          simpa [String.length] using hl
        · simp [if_neg hl] at h1
      · exact ih _ t h2

/-- Every token of a document has at least two characters. -/
lemma length_of_mem_tokenize (s t : String) (ht : t ∈ tokenize s) : 2 ≤ t.length :=
  length_of_mem_tokenizeAux _ _ t ht

/-! ### Enumeration lemmas -/

/-- Mapping a function of the element over an enumeration forgets the indices. -/
lemma enumFromList_map_snd {β : Type} (g : Sample → β) :
    ∀ (k : Nat) (l : List Sample), (enumFromList k l).map (fun p => g p.2) = l.map g := by
  intro k l
  induction l generalizing k with
  | nil => rfl
  | cons s ss ih => simp [enumFromList, ih]

/-- Elements of an enumeration come from the underlying list. -/
lemma mem_enumFromList :
    ∀ (k : Nat) (l : List Sample) (p : Nat × Sample), p ∈ enumFromList k l → p.2 ∈ l := by
  intro k l
  induction l generalizing k with
  | nil => intro p hp; simp [enumFromList] at hp
  | cons s ss ih =>
    intro p hp
    simp only [enumFromList, List.mem_cons] at hp
    rcases hp with rfl | hp
    · simp
    · exact List.mem_cons_of_mem _ (ih _ _ hp)

/-! ### Metric lemmas -/

/-- Pairing a row with itself, a cell is a true positive iff it is positive. -/
lemma countP_zip_self_and (r : List Bool) :
    (r.zip r).countP (fun c => c.1 && c.2) = r.countP (fun b => b) := by
  induction r with
  | nil => rfl
  | cons b bs ih => cases b <;> simp [List.zip_cons_cons, List.countP_cons, ih]

/-- Pairing a row with itself yields no false positives. -/
lemma countP_zip_self_fp (r : List Bool) :
    (r.zip r).countP (fun c => !c.1 && c.2) = 0 := by
  induction r with
  | nil => rfl
  | cons b bs ih => cases b <;> simp [List.zip_cons_cons, List.countP_cons, ih]

/-- Pairing a row with itself yields no false negatives. -/
lemma countP_zip_self_fn (r : List Bool) :
    (r.zip r).countP (fun c => c.1 && !c.2) = 0 := by
  induction r with
  | nil => rfl
  | cons b bs ih => cases b <;> simp [List.zip_cons_cons, List.countP_cons, ih]

/-- Comparing a matrix with itself, TP is the number of positive cells. -/
lemma tpCount_self (x : List (List Bool)) : tpCount x x = onesCount x := by
  induction x with
  | nil => rfl
  | cons r rs ih =>
    simp only [tpCount, onesCount, List.zip_cons_cons, List.map_cons, List.sum_cons] at *
    rw [countP_zip_self_and, ih]

/-- Comparing a matrix with itself yields no false positives. -/
lemma fpCount_self (x : List (List Bool)) : fpCount x x = 0 := by
  induction x with
  | nil => rfl
  | cons r rs ih =>
    simp only [fpCount, List.zip_cons_cons, List.map_cons, List.sum_cons] at *
    rw [countP_zip_self_fp, ih]

/-- Comparing a matrix with itself yields no false negatives. -/
lemma fnCount_self (x : List (List Bool)) : fnCount x x = 0 := by
  induction x with
  | nil => rfl
  | cons r rs ih =>
    simp only [fnCount, List.zip_cons_cons, List.map_cons, List.sum_cons] at *
    rw [countP_zip_self_fn, ih]

/-- Micro precision of a matrix against itself is 1 whenever some cell is
positive. -/
lemma microPrecision_self (x : List (List Bool)) (h : onesCount x ≠ 0) :
    microPrecision x x = 1 := by
  have h0 : ((onesCount x : ℚ)) ≠ 0 := Nat.cast_ne_zero.mpr h
  unfold microPrecision
  rw [tpCount_self, fpCount_self]
  simp [h, h0]

/-- Micro recall of a matrix against itself is 1 whenever some cell is
positive. -/
lemma microRecall_self (x : List (List Bool)) (h : onesCount x ≠ 0) :
    microRecall x x = 1 := by
  have h0 : ((onesCount x : ℚ)) ≠ 0 := Nat.cast_ne_zero.mpr h
  unfold microRecall
  rw [tpCount_self, fnCount_self]
  simp [h, h0]

/-- Micro F1 of a matrix against itself is 1 whenever some cell is positive. -/
lemma microF1_self (x : List (List Bool)) (h : onesCount x ≠ 0) :
    microF1 x x = 1 := by
  unfold microF1
  rw [microPrecision_self x h, microRecall_self x h]
  norm_num

/-- Pooled cell counts vanish when the predicted matrix has no positive cell
and the counted predicate needs one. -/
lemma sum_countP_zip_zero (p : Bool × Bool → Bool)
    (hp : ∀ a : Bool, p (a, false) = false)
    (yt yp : List (List Bool)) (h : ∀ r ∈ yp, ∀ b ∈ r, b = false) :
    ((yt.zip yp).map fun r => (r.1.zip r.2).countP p).sum = 0 := by
  rw [List.sum_eq_zero]
  intro a ha
  rw [List.mem_map] at ha
  obtain ⟨r, hr, rfl⟩ := ha
  obtain ⟨r1, r2⟩ := r
  rw [List.countP_eq_zero]
  intro c hc
  obtain ⟨c1, c2⟩ := c
  have hc2 : c2 ∈ r2 := (List.of_mem_zip hc).2
  have hr2 : r2 ∈ yp := (List.of_mem_zip hr).2
  have : c2 = false := h r2 hr2 c2 hc2
  subst this
  simp [hp]

/-- With no predicted-positive cell, TP = 0. -/
lemma tpCount_allfalse (yt yp : List (List Bool))
    (h : ∀ r ∈ yp, ∀ b ∈ r, b = false) : tpCount yt yp = 0 :=
  sum_countP_zip_zero _ (fun a => by simp) yt yp h

/-- With no predicted-positive cell, FP = 0. -/
lemma fpCount_allfalse (yt yp : List (List Bool))
    (h : ∀ r ∈ yp, ∀ b ∈ r, b = false) : fpCount yt yp = 0 :=
  sum_countP_zip_zero _ (fun a => by simp) yt yp h

/-- Micro precision is 0 by the zero-division convention when nothing is
predicted and nothing matches. -/
lemma microPrecision_zero (yt yp : List (List Bool))
    (htp : tpCount yt yp = 0) (hfp : fpCount yt yp = 0) :
    microPrecision yt yp = 0 := by
  simp [microPrecision, htp, hfp]

/-- Micro recall is 0 whenever TP = 0. -/
lemma microRecall_zero (yt yp : List (List Bool)) (htp : tpCount yt yp = 0) :
    microRecall yt yp = 0 := by
  unfold microRecall
  rw [htp]
  split <;> simp

/-- The empty string vectorizes to the all-false vector. -/
lemma transform_empty_allfalse (vocab : List String) :
    ∀ b ∈ transform vocab "", b = false := by
  intro b hb
  simp only [transform, List.mem_map] at hb
  obtain ⟨t, ht, rfl⟩ := hb
  simp [tokenize, tokenizeAux]

/-- A nonempty vocabulary fitted on `docs` forces at least one positive cell
in the vectorization of `docs` themselves. -/
lemma onesCount_fit_ne_zero (docs : List String) (hv : fitVocab docs ≠ []) :
    onesCount (docs.map (transform (fitVocab docs))) ≠ 0 := by
  obtain ⟨t, ht⟩ := List.exists_mem_of_ne_nil _ hv
  obtain ⟨d, hd, htd⟩ := (mem_fitVocab t docs).mp ht
  have hcell : (true : Bool) ∈ transform (fitVocab docs) d := by
    have hmem : decide (t ∈ tokenize d) ∈ transform (fitVocab docs) d :=
      List.mem_map_of_mem _ ht
    simpa [htd] using hmem
  have hrow : (transform (fitVocab docs) d).countP (fun b => b) ≠ 0 := by
    intro h0
    rw [List.countP_eq_zero] at h0
    simpa using h0 _ hcell
  intro h0
  unfold onesCount at h0
  rw [List.sum_eq_zero_iff] at h0
  exact hrow (h0 _ (List.mem_map_of_mem _ (List.mem_map_of_mem _ hd)))

/-- Extra world for C4: same dataset as `envC4` but with different backend
predictions, to show the vocabulary ignores predictions. -/
def envC4p : Env :=
  { envC4 with
      ocrsExtract := fun _ => Except.ok "zz",
      tessExtract := fun _ => Except.error "no" }

/-! ### Claim theorems -/

/-- Claim C1: the spec says every backend's `extract` is invoked on sample
i's own image.  The code violates this: the Tesseract loop passes the stale
`tmp_file.name` left over from the ocrs loop, so Tesseract reads the LAST
sample's image on every iteration.  Concretely, with images 10 and 20, ocrs
sees [10, 20] but Tesseract sees [20, 20]. -/
theorem claim_c1_stale_tesseract_input :
    (runEval envC1 2).err = none ∧
    (runEval envC1 2).ocrsImages = [10, 20] ∧
    (runEval envC1 2).tessImages = [20, 20] ∧
    envC1.dataset.map Sample.image = [10, 20] := by decide

/-- Claim C2 (counterexample): after a fully successful one-sample run the
sample's temp file (name 0, image 7) is still on disk, refuting guaranteed
removal. -/
theorem claim_c2_counterexample :
    (runEval envC2 1).err = none ∧ (runEval envC2 1).files = [(0, 7)] := by decide

/-- Claim C2 (amended): `NamedTemporaryFile(delete=False)` is never removed
on any exit path.  The set of temp files only grows across the loop, and a
successful loop leaves exactly one persisting file per evaluated sample. -/
theorem claim_c2_files_persist (env : Env) (l : List (Nat × Sample)) (st : OcrsSt) :
    (∃ t, ((ocrsLoopAux env l st).1).files = st.files ++ t) ∧
    ((ocrsLoopAux env l st).2 = none →
      ((ocrsLoopAux env l st).1).files = st.files ++ l.map fun p => (p.1, p.2.image)) := by
  induction l generalizing st with
  | nil =>
    exact ⟨⟨[], by simp [ocrsLoopAux]⟩, fun _ => by simp [ocrsLoopAux]⟩
  | cons p rest ih =>
    obtain ⟨idx, s⟩ := p
    cases hx : env.ocrsExtract s.image with
    | error e =>
      constructor
      · exact ⟨[(idx, s.image)], by simp [ocrsLoopAux, hx]⟩
      · intro h
        simp [ocrsLoopAux, hx] at h
    | ok txt =>
      have heq : ocrsLoopAux env ((idx, s) :: rest) st =
          ocrsLoopAux env rest
            ⟨st.preds ++ [txt], st.time + env.ocrsTime idx,
             st.files ++ [(idx, s.image)], st.imagesUsed ++ [s.image],
             some (idx, s.image)⟩ := by
        simp [ocrsLoopAux, hx]
      rw [heq]
      obtain ⟨⟨t, ht⟩, himp⟩ :=
        ih ⟨st.preds ++ [txt], st.time + env.ocrsTime idx,
            st.files ++ [(idx, s.image)], st.imagesUsed ++ [s.image],
            some (idx, s.image)⟩
      constructor
      · exact ⟨(idx, s.image) :: t, by rw [ht]; simp⟩
      · intro h
        rw [himp h]
        simp

/-- Claim C2 (witness): the amended statement evaluated on a concrete
one-sample loop. -/
theorem claim_c2_files_persist_witness :
    ((ocrsLoopAux envC2 [(0, ⟨7, ["aa"]⟩)] ocrsInit).1).files =
      ocrsInit.files ++ [(0, 7)] :=
  (claim_c2_files_persist envC2 [(0, ⟨7, ["aa"]⟩)] ocrsInit).2 (by decide)

/-- Claim C3 (counterexample): with a 1-sample dataset, `max_samples = 2`
and 4 seconds of measured time, the script reports 4/2 = 2 s/image, while
total time / N would be 4/1 = 4. -/
theorem claim_c3_counterexample :
    (runEval envC3 2).lines.map Line.avgLatency = [2] ∧
    ocrsTotal envC3 2 = 4 ∧
    (envC3.dataset.take 2).length = 1 ∧
    ¬ ((2 : ℚ) = 4 / 1) := by
  have htime : (ocrsFst envC3 2).time = 4 := by
    simp [ocrsFst, ocrsLoopAux, enumList, enumFromList, envC3, ocrsInit]
  refine ⟨?_, htime, by decide, by norm_num⟩
  rw [runEval_ok_off envC3 2 rfl (by decide) (by decide) rfl]
  simp only [List.map_cons, List.map_nil, oLineD, reportLine]
  rw [htime]
  norm_num

/-- Claim C3 (amended): the reported average per-sample latency is always
the total accumulated extraction time divided by `max_samples`; since
N = `(dataset.take max_samples).length`, this equals total/N exactly when
`max_samples ≤ dataset_size`, and the divisor stays `max_samples` (not N)
when `max_samples` exceeds the dataset size. -/
theorem claim_c3_latency_divisor (env : Env) (n : Nat)
    (hb : env.buildResult = Except.ok ()) (hv : ¬ theVocab env n = [])
    (ho : ocrsErr env n = none) :
    (runEval env n).lines.head?.map Line.avgLatency =
      some (ocrsTotal env n / (n : ℚ)) ∧
    (n ≤ env.dataset.length → ((env.dataset.take n).length : ℚ) = (n : ℚ)) := by
  constructor
  · rw [lines_head_ok env n hb hv ho]
    rfl
  · intro h
    rw [List.length_take, Nat.min_eq_left h]

/-- Claim C3 (witness): the amended statement on a concrete run with
`max_samples = 1` equal to the dataset size. -/
theorem claim_c3_latency_divisor_witness :
    (runEval envC3 1).lines.head?.map Line.avgLatency =
      some (ocrsTotal envC3 1 / (1 : ℚ)) ∧
    ((envC3.dataset.take 1).length : ℚ) = (1 : ℚ) := by
  have h := claim_c3_latency_divisor envC3 1 rfl (by decide) (by decide)
  exact ⟨h.1, h.2 (by decide)⟩

/-- Claim C4: the vocabulary is fitted exactly once, on the ground-truth
texts of the first `max_samples` samples only; it is a function of the
dataset alone (never of backend predictions); and the very same vocabulary
vectorizes the ground truth, the ocrs predictions, and — when Tesseract
runs — the Tesseract predictions. -/
theorem claim_c4_vocabulary_frozen (env : Env) (n : Nat)
    (hb : env.buildResult = Except.ok ()) (hv : ¬ theVocab env n = [])
    (ho : ocrsErr env n = none) :
    (runEval env n).vocab = fitVocab ((trueText env.dataset).take n) ∧
    (∀ env' : Env, env'.dataset = env.dataset → theVocab env' n = theVocab env n) ∧
    (runEval env n).lines.head? = some (reportLine "ORCS" (ocrsFst env n).time n
      ((groundDocs env n).map (transform (theVocab env n)))
      ((ocrsFst env n).preds.map (transform (theVocab env n)))) ∧
    (env.tesseractAvailable = true → (runEval env n).err = none →
      ∃ stale : Nat, (runEval env n).lines =
        [oLineD env n,
         reportLine "Tesseract" (tessFst env stale n).time n
           ((groundDocs env n).map (transform (theVocab env n)))
           ((tessFst env stale n).preds.map (transform (theVocab env n)))]) := by
  refine ⟨vocab_ok env n hb hv, ?_, ?_, ?_⟩
  · intro env' hds
    unfold theVocab groundDocs trueText
    rw [hds]
  · exact lines_head_ok env n hb hv ho
  · intro hta herr
    cases hl : (ocrsFst env n).last with
    | none =>
      rw [runEval_last_none env n hb hv ho hta hl] at herr
      simp at herr
    | some p =>
      obtain ⟨nm, stale⟩ := p
      cases hte : tessErr env stale n with
      | some e =>
        rw [runEval_tess_err env n nm stale e hb hv ho hta hl hte] at herr
        simp at herr
      | none =>
        refine ⟨stale, ?_⟩
        rw [runEval_ok_on env n nm stale hb hv ho hta hl hte]
        rfl

/-- Claim C4 (witness): on a concrete run, the reported vocabulary is the
ground-truth fit, and replacing both backends' outputs leaves the
vocabulary unchanged. -/
theorem claim_c4_vocabulary_frozen_witness :
    (runEval envC4 1).vocab = fitVocab ((trueText envC4.dataset).take 1) ∧
    theVocab envC4p 1 = theVocab envC4 1 := by
  have h := claim_c4_vocabulary_frozen envC4 1 rfl (by decide) (by decide)
  exact ⟨h.1, h.2.1 envC4p rfl⟩

/-- Claim C5: a backend answering the empty string on every image still
yields a completed run, whose report line carries precision 0 and recall 0
by the zero-division convention, with no error. -/
theorem claim_c5_empty_predictions (env : Env) (n : Nat)
    (hb : env.buildResult = Except.ok ()) (hv : ¬ theVocab env n = [])
    (hp : ∀ img : Nat, env.ocrsExtract img = Except.ok "")
    (hta : env.tesseractAvailable = false) :
    (runEval env n).err = none ∧
    (runEval env n).lines = [oLineD env n] ∧
    (oLineD env n).precision = 0 ∧
    (oLineD env n).recallScore = 0 := by
  have hloop := ocrsLoopAux_ok env (fun _ => "") (enumList (env.dataset.take n)) ocrsInit
      (fun p _ => hp p.2.image)
  have ho : ocrsErr env n = none := by unfold ocrsErr; rw [hloop]
  have hpreds : (ocrsFst env n).preds =
      (enumList (env.dataset.take n)).map fun _ => "" := by
    unfold ocrsFst; rw [hloop]; rfl
  have hrun := runEval_ok_off env n hb hv ho hta
  have hallf : ∀ r ∈ (ocrsFst env n).preds.map (transform (theVocab env n)),
      ∀ b ∈ r, b = false := by
    intro r hr
    rw [hpreds, List.mem_map] at hr
    obtain ⟨d, hd, rfl⟩ := hr
    rw [List.mem_map] at hd
    obtain ⟨p, hp2, rfl⟩ := hd
    exact transform_empty_allfalse _
  refine ⟨by rw [hrun], by rw [hrun], ?_, ?_⟩
  · show microPrecision (xTrueD env n)
      ((ocrsFst env n).preds.map (transform (theVocab env n))) = 0
    exact microPrecision_zero _ _ (tpCount_allfalse _ _ hallf) (fpCount_allfalse _ _ hallf)
  · show microRecall (xTrueD env n)
      ((ocrsFst env n).preds.map (transform (theVocab env n))) = 0
    exact microRecall_zero _ _ (tpCount_allfalse _ _ hallf)

/-- Claim C5 (witness): the all-empty-prediction run on a concrete world. -/
theorem claim_c5_empty_predictions_witness :
    (runEval envC5 1).err = none ∧
    (runEval envC5 1).lines = [oLineD envC5 1] ∧
    (oLineD envC5 1).precision = 0 ∧
    (oLineD envC5 1).recallScore = 0 :=
  claim_c5_empty_predictions envC5 1 rfl (by decide) (fun _ => rfl) rfl

/-- Claim C6: when `pytesseract` is unavailable it is silently skipped —
the run completes with only the ORCS line — and the primary line is
pointwise the same as in any world that differs only in the Tesseract
configuration (so also in the world where Tesseract is present). -/
theorem claim_c6_optional_backend_skip (env : Env) (n : Nat)
    (hta : env.tesseractAvailable = false)
    (hb : env.buildResult = Except.ok ()) (hv : ¬ theVocab env n = [])
    (ho : ocrsErr env n = none) :
    (runEval env n).err = none ∧
    (runEval env n).lines.map Line.backend = ["ORCS"] ∧
    (∀ env' : Env, env'.dataset = env.dataset → env'.buildResult = env.buildResult →
      env'.ocrsExtract = env.ocrsExtract → env'.ocrsTime = env.ocrsTime →
      (runEval env' n).lines.head? = (runEval env n).lines.head?) := by
  have hrun := runEval_ok_off env n hb hv ho hta
  refine ⟨by rw [hrun], by rw [hrun]; rfl, ?_⟩
  intro env' hds hb' hx ht
  have hgd : groundDocs env' n = groundDocs env n := by
    unfold groundDocs trueText; rw [hds]
  have hvoc : theVocab env' n = theVocab env n := by
    unfold theVocab; rw [hgd]
  have hxT : xTrueD env' n = xTrueD env n := by
    unfold xTrueD; rw [hgd, hvoc]
  have hfst : ocrsFst env' n = ocrsFst env n := by
    unfold ocrsFst; rw [hds, ocrsLoopAux_congr env env' hx ht]
  have herr : ocrsErr env' n = ocrsErr env n := by
    unfold ocrsErr; rw [hds, ocrsLoopAux_congr env env' hx ht]
  have holD : oLineD env' n = oLineD env n := by
    unfold oLineD; rw [hfst, hxT, hvoc]
  rw [lines_head_ok env' n (hb'.trans hb) (by rw [hvoc]; exact hv)
        (by rw [herr]; exact ho),
      lines_head_ok env n hb hv ho, holD]

/-- Claim C6 (witness): a concrete Tesseract-less run completes, and the
same world with Tesseract switched on prints the identical primary line. -/
theorem claim_c6_optional_backend_skip_witness :
    (runEval envC2 1).err = none ∧
    (runEval envC2p 1).lines.head? = (runEval envC2 1).lines.head? := by
  have h := claim_c6_optional_backend_skip envC2 1 rfl rfl (by decide) (by decide)
  exact ⟨h.1, h.2.2 envC2p rfl rfl rfl rfl⟩

/-- Claim C7: failures are fatal and immediate.  (1) A build failure aborts
the run with nothing printed.  (2) A failing `extract_text` kills the run
with that error: no report line at all, and Tesseract never invoked.
(3) The loop stops at the failing sample: no retry, no skip — the failing
sample and everything after it contribute no prediction.  (4) A failing
Tesseract call stops the run after only the ORCS line was printed. -/
theorem claim_c7_failures_fatal (env : Env) (n : Nat) (e : String) :
    (env.buildResult = Except.error e → runEval env n = failedRun e) ∧
    (env.buildResult = Except.ok () → ¬ theVocab env n = [] → ocrsErr env n = some e →
      (runEval env n).err = some e ∧ (runEval env n).lines = [] ∧
      (runEval env n).tessImages = []) ∧
    (∀ (idx : Nat) (s : Sample) (rest : List (Nat × Sample)) (st : OcrsSt),
      env.ocrsExtract s.image = Except.error e →
      (ocrsLoopAux env ((idx, s) :: rest) st).2 = some e ∧
      ((ocrsLoopAux env ((idx, s) :: rest) st).1).preds = st.preds) ∧
    (∀ (nm stale : Nat), env.buildResult = Except.ok () → ¬ theVocab env n = [] →
      ocrsErr env n = none → env.tesseractAvailable = true →
      (ocrsFst env n).last = some (nm, stale) → tessErr env stale n = some e →
      (runEval env n).err = some e ∧
      (runEval env n).lines.map Line.backend = ["ORCS"]) := by
  refine ⟨fun hb => runEval_build_err env n e hb, ?_, ?_, ?_⟩
  · intro hb hv ho
    rw [runEval_loop_err env n e hb hv ho]
    exact ⟨rfl, rfl, rfl⟩
  · intro idx s rest st hx
    exact ⟨by simp [ocrsLoopAux, hx], by simp [ocrsLoopAux, hx]⟩
  · intro nm stale hb hv ho hta hl hte
    rw [runEval_tess_err env n nm stale e hb hv ho hta hl hte]
    exact ⟨rfl, rfl⟩

/-- Claim C7 (witness): a concrete failing build and a concrete failing
extraction, both fatal with nothing (or no ORCS line) printed. -/
theorem claim_c7_failures_fatal_witness :
    runEval envB 1 = failedRun "boom" ∧
    ((runEval envE 1).err = some "fail" ∧ (runEval envE 1).lines = []) := by
  refine ⟨(claim_c7_failures_fatal envB 1 "boom").1 rfl, ?_⟩
  have h := (claim_c7_failures_fatal envE 1 "fail").2.1 rfl (by decide) (by decide)
  exact ⟨h.1, h.2.1⟩

/-- Claim C8: a backend whose prediction equals the ground truth on every
sample gets micro precision, recall and F1 exactly 1. -/
theorem claim_c8_perfect_predictions (env : Env) (n : Nat)
    (hb : env.buildResult = Except.ok ()) (hv : ¬ theVocab env n = [])
    (hp : ∀ s ∈ env.dataset, env.ocrsExtract s.image = Except.ok (joinLines s.texts)) :
    (runEval env n).lines.head? = some (oLineD env n) ∧
    (oLineD env n).precision = 1 ∧
    (oLineD env n).recallScore = 1 ∧
    (oLineD env n).f1 = 1 := by
  have hf : ∀ p ∈ enumList (env.dataset.take n),
      env.ocrsExtract p.2.image = Except.ok ((fun s => joinLines s.texts) p.2) :=
    fun p hpmem => hp p.2 (List.take_subset n env.dataset (mem_enumFromList 0 _ p hpmem))
  have hloop := ocrsLoopAux_ok env (fun s => joinLines s.texts)
      (enumList (env.dataset.take n)) ocrsInit hf
  have ho : ocrsErr env n = none := by unfold ocrsErr; rw [hloop]
  have hpreds : (ocrsFst env n).preds = groundDocs env n := by
    unfold ocrsFst
    rw [hloop]
    have h1 := enumFromList_map_snd (fun s => joinLines s.texts) 0 (env.dataset.take n)
    have h2 : ((env.dataset.take n).map fun s => joinLines s.texts) = groundDocs env n := by
      simp [groundDocs, trueText, List.map_take]
    exact h1.trans h2
  have hxeq : (ocrsFst env n).preds.map (transform (theVocab env n)) = xTrueD env n := by
    rw [hpreds]; rfl
  have hone : onesCount (xTrueD env n) ≠ 0 :=
    onesCount_fit_ne_zero (groundDocs env n) hv
  refine ⟨lines_head_ok env n hb hv ho, ?_, ?_, ?_⟩
  · show microPrecision (xTrueD env n)
      ((ocrsFst env n).preds.map (transform (theVocab env n))) = 1
    rw [hxeq]
    exact microPrecision_self _ hone
  · show microRecall (xTrueD env n)
      ((ocrsFst env n).preds.map (transform (theVocab env n))) = 1
    rw [hxeq]
    exact microRecall_self _ hone
  · show microF1 (xTrueD env n)
      ((ocrsFst env n).preds.map (transform (theVocab env n))) = 1
    rw [hxeq]
    exact microF1_self _ hone

/-- Claim C8 (witness): the perfect-prediction run on a concrete world. -/
theorem claim_c8_perfect_predictions_witness :
    (runEval envC2 1).lines.head? = some (oLineD envC2 1) ∧
    (oLineD envC2 1).precision = 1 ∧
    (oLineD envC2 1).recallScore = 1 ∧
    (oLineD envC2 1).f1 = 1 := by
  refine claim_c8_perfect_predictions envC2 1 rfl (by decide) ?_
  intro s hs
  have hseq : s = ⟨7, ["aa"]⟩ := by simpa [envC2] using hs
  subst hseq
  rfl

/-- Claim C9: a prediction's term vector only sees tokens of the frozen
vocabulary — two predictions agreeing on vocabulary tokens vectorize
identically (so out-of-vocabulary tokens create no false positives and
change no metric) — and every vocabulary term has length ≥ 2, so shorter
tokens can never be in the vocabulary. -/
theorem claim_c9_oov_tokens_inert (docs : List String) (d d' : String)
    (h : ∀ t ∈ fitVocab docs, (t ∈ tokenize d ↔ t ∈ tokenize d')) :
    transform (fitVocab docs) d = transform (fitVocab docs) d' ∧
    ∀ t ∈ fitVocab docs, 2 ≤ t.length := by
  constructor
  · unfold transform
    apply List.map_congr_left
    intro t ht
    exact decide_eq_decide.mpr (h t ht)
  · intro t ht
    obtain ⟨d0, hd0, htd0⟩ := (mem_fitVocab t docs).mp ht
    exact length_of_mem_tokenize d0 t htd0

/-- Claim C9 (witness): adding the out-of-vocabulary token `zz` to a
prediction leaves its term vector unchanged. -/
theorem claim_c9_oov_tokens_inert_witness :
    transform (fitVocab ["aa bb"]) "aa zz" = transform (fitVocab ["aa bb"]) "aa" ∧
    ∀ t ∈ fitVocab ["aa bb"], 2 ≤ t.length :=
  claim_c9_oov_tokens_inert ["aa bb"] "aa zz" "aa" (by decide)

/-- Claim C10: with `max_samples = 0` the vocabulary is fitted on an empty
document list, so `CountVectorizer` raises and the run dies with the
empty-vocabulary `ValueError` before printing anything. -/
theorem claim_c10_zero_samples_error (env : Env)
    (hb : env.buildResult = Except.ok ()) :
    (runEval env 0).err = some emptyVocabMsg ∧ (runEval env 0).lines = [] := by
  have hv : theVocab env 0 = [] := rfl
  rw [runEval_vocab_empty env 0 hb hv]
  exact ⟨rfl, rfl⟩

/-- Claim C10 (witness): the zero-sample failure on a concrete world. -/
theorem claim_c10_zero_samples_error_witness :
    (runEval envC2 0).err = some emptyVocabMsg ∧ (runEval envC2 0).lines = [] :=
  claim_c10_zero_samples_error envC2 rfl

end SroieEval
